import Mathlib

/-!
Verification of the list value model of terraform-plugin-framework.

This file gives a shallow embedding of the code under review:

* `types/basetypes/list_value.go` — the `ListValue` data type, its
  constructors (`NewListNull`, `NewListUnknown`, `NewListValue`,
  `NewListValueMust`), its accessors (`Elements`, `ElementsAs`,
  `ElementType`, `IsNull`, `IsUnknown`), `Equal` and `ToTerraformValue`.
* `internal/fwschemadata/value_semantic_equality_dynamic.go` —
  `ValueSemanticEqualityDynamic`.
* `resource/schema/list_attribute.go` (source file with unknown name) —
  `checkAttrTypeForDynamics`.

External collaborators (the attr.Type implementations, the element value
types such as StringValue and DynamicValue, and the tftypes wire layer)
are not part of the reviewed sources; their definitions below are
modelled from the specification, as marked in their doc comments.

Go slices are embedded as cons lists, Go interface values as inductive
sums, machine integers as Nat/Int, and fallible or panicking code as
explicit result sums.  The value state enumeration of the attr package
is an integer enumeration in Go (the zero value is the null state), so
it is embedded as Nat with named constants.
-/

/-- Modelled from the spec: the tri-state tag of an attribute value.  In Go
this is an integer enumeration (attr.ValueState); the zero value is null. -/
abbrev ValueState := Nat

/-- Modelled from the spec: the null state (Go attr.ValueStateNull, value 0). -/
def ValueStateNull : ValueState := 0

/-- Modelled from the spec: the unknown state (Go attr.ValueStateUnknown, value 1). -/
def ValueStateUnknown : ValueState := 1

/-- Modelled from the spec: the known state (Go attr.ValueStateKnown, value 2). -/
def ValueStateKnown : ValueState := 2

mutual
/-- Modelled from the spec: the Type Descriptor tree (attr.Type).  Primitive
kinds, the homogeneous collections list/set/map, heterogeneous tuple and
object kinds, and the dynamic kind whose concrete shape is resolved from
runtime content.  The dynamic kind is the one implementing the Go interface
attr.TypeWithDynamicValue; list, set and map implement
attr.TypeWithElementType; tuple implements attr.TypeWithElementTypes;
object implements attr.TypeWithAttributeTypes. -/
inductive AttrType where
  | string
  | number
  | bool
  | dynamic
  | list (elem : AttrType)
  | set (elem : AttrType)
  | map (elem : AttrType)
  | tuple (elems : AttrTypeList)
  | object (attrs : AttrFieldList)

/-- A Go slice of attr.Type, embedded as a cons list. -/
inductive AttrTypeList where
  | nil
  | cons (head : AttrType) (tail : AttrTypeList)

/-- A Go map from attribute name to attr.Type, embedded as an association list. -/
inductive AttrFieldList where
  | nil
  | cons (name : String) (typ : AttrType) (tail : AttrFieldList)
end

mutual
/-- Modelled from the spec: structural equality of Type Descriptors — two
descriptors are equal iff they have the same kind and, recursively, equal
element and attribute types (the Equal methods of the attr.Type
implementations). -/
def AttrType.equal : AttrType → AttrType → Bool
  | .string, .string => true
  | .number, .number => true
  | .bool, .bool => true
  | .dynamic, .dynamic => true
  | .list a, .list b => AttrType.equal a b
  | .set a, .set b => AttrType.equal a b
  | .map a, .map b => AttrType.equal a b
  | .tuple as, .tuple bs => AttrTypeList.equal as bs
  | .object as, .object bs => AttrFieldList.equal as bs
  | _, _ => false
termination_by structural a => a

/-- Pointwise equality of type lists (tuple element types). -/
def AttrTypeList.equal : AttrTypeList → AttrTypeList → Bool
  | .nil, .nil => true
  | .cons a as, .cons b bs => AttrType.equal a b && AttrTypeList.equal as bs
  | _, _ => false
termination_by structural a => a

/-- Pointwise equality of attribute type fields (object attribute types). -/
def AttrFieldList.equal : AttrFieldList → AttrFieldList → Bool
  | .nil, .nil => true
  | .cons n a as, .cons n2 b bs => n == n2 && AttrType.equal a b && AttrFieldList.equal as bs
  | _, _ => false
termination_by structural a => a
end

/-- Whether the descriptor is the dynamic kind, i.e. whether the Go type
assertion to attr.TypeWithDynamicValue succeeds. -/
def AttrType.isDynamic : AttrType → Bool
  | .dynamic => true
  | _ => false

mutual
/-- Modelled from the spec: readable rendering of a Type Descriptor, the
String method of the attr.Type implementations, used inside diagnostics. -/
def AttrType.typeString : AttrType → String
  | .string => "basetypes.StringType"
  | .number => "basetypes.NumberType"
  | .bool => "basetypes.BoolType"
  | .dynamic => "basetypes.DynamicType"
  | .list e => "types.ListType[" ++ AttrType.typeString e ++ "]"
  | .set e => "types.SetType[" ++ AttrType.typeString e ++ "]"
  | .map e => "types.MapType[" ++ AttrType.typeString e ++ "]"
  | .tuple es => "types.TupleType[" ++ AttrTypeList.typeStrings es ++ "]"
  | .object as => "types.ObjectType[" ++ AttrFieldList.typeStrings as ++ "]"
termination_by structural a => a

/-- Comma separated renderings of tuple element types. -/
def AttrTypeList.typeStrings : AttrTypeList → String
  | .nil => ""
  | .cons a .nil => AttrType.typeString a
  | .cons a as => AttrType.typeString a ++ ", " ++ AttrTypeList.typeStrings as
termination_by structural a => a

/-- Comma separated renderings of object attribute types. -/
def AttrFieldList.typeStrings : AttrFieldList → String
  | .nil => ""
  | .cons n a .nil => n ++ ":" ++ AttrType.typeString a
  | .cons n a as => n ++ ":" ++ AttrType.typeString a ++ ", " ++ AttrFieldList.typeStrings as
termination_by structural a => a
end

mutual
/-- Modelled from the spec: the wire level type tree (tftypes.Type).  The
dynamic placeholder kind is tftypes.DynamicPseudoType; it must be resolved
to a concrete type before a fully encoded known payload is emitted. -/
inductive TfType where
  | string
  | number
  | bool
  | dynamicPseudoType
  | list (elem : TfType)
  | set (elem : TfType)
  | map (elem : TfType)
  | tuple (elems : TfTypeList)
  | object (attrs : TfFieldList)

/-- A sequence of wire types (tuple element types). -/
inductive TfTypeList where
  | nil
  | cons (head : TfType) (tail : TfTypeList)

/-- Named wire types (object attribute types). -/
inductive TfFieldList where
  | nil
  | cons (name : String) (typ : TfType) (tail : TfFieldList)
end

/-- Whether the wire type is exactly the dynamic placeholder, the Go test
val.Type().Is(tftypes.DynamicPseudoType). -/
def TfType.isDynamicPseudoType : TfType → Bool
  | .dynamicPseudoType => true
  | _ => false

mutual
/-- Modelled from the spec: structural equality of wire types. -/
def TfType.equal : TfType → TfType → Bool
  | .string, .string => true
  | .number, .number => true
  | .bool, .bool => true
  | .dynamicPseudoType, .dynamicPseudoType => true
  | .list a, .list b => TfType.equal a b
  | .set a, .set b => TfType.equal a b
  | .map a, .map b => TfType.equal a b
  | .tuple as, .tuple bs => TfTypeList.equal as bs
  | .object as, .object bs => TfFieldList.equal as bs
  | _, _ => false
termination_by structural a => a

/-- Pointwise equality of wire type lists. -/
def TfTypeList.equal : TfTypeList → TfTypeList → Bool
  | .nil, .nil => true
  | .cons a as, .cons b bs => TfType.equal a b && TfTypeList.equal as bs
  | _, _ => false
termination_by structural a => a

/-- Pointwise equality of named wire types. -/
def TfFieldList.equal : TfFieldList → TfFieldList → Bool
  | .nil, .nil => true
  | .cons n a as, .cons n2 b bs => n == n2 && TfType.equal a b && TfFieldList.equal as bs
  | _, _ => false
termination_by structural a => a
end

/-- Modelled from the spec: wire type conformance (tftypes UsableAs), used by
wire value validation.  A value of any type is usable where the dynamic
placeholder is expected; collections recurse; other kinds require equality. -/
def TfType.UsableAs : TfType → TfType → Bool
  | _, .dynamicPseudoType => true
  | .list a, .list b => TfType.UsableAs a b
  | .set a, .set b => TfType.UsableAs a b
  | .map a, .map b => TfType.UsableAs a b
  | a, b => TfType.equal a b

mutual
/-- Modelled from the spec: derivation of the wire type of a Type
Descriptor (the TerraformType method).  The dynamic kind maps to the
dynamic placeholder. -/
def AttrType.terraformType : AttrType → TfType
  | .string => .string
  | .number => .number
  | .bool => .bool
  | .dynamic => .dynamicPseudoType
  | .list e => .list (AttrType.terraformType e)
  | .set e => .set (AttrType.terraformType e)
  | .map e => .map (AttrType.terraformType e)
  | .tuple es => .tuple (AttrTypeList.terraformTypes es)
  | .object as => .object (AttrFieldList.terraformTypes as)
termination_by structural a => a

/-- Wire types of tuple element types. -/
def AttrTypeList.terraformTypes : AttrTypeList → TfTypeList
  | .nil => .nil
  | .cons a as => .cons (AttrType.terraformType a) (AttrTypeList.terraformTypes as)
termination_by structural a => a

/-- Wire types of object attribute types. -/
def AttrFieldList.terraformTypes : AttrFieldList → TfFieldList
  | .nil => .nil
  | .cons n a as => .cons n (AttrType.terraformType a) (AttrFieldList.terraformTypes as)
termination_by structural a => a
end

mutual
/-- Modelled from the spec: a Wire Value (tftypes.Value) is a wire type
together with a content node: an explicit null marker, an explicit unknown
marker, or a known payload (scalar or sequence). -/
inductive TfValue where
  | mk (typ : TfType) (content : TfContent)

/-- The content node of a Wire Value. -/
inductive TfContent where
  | null
  | unknown
  | str (s : String)
  | num (n : Int)
  | boolean (b : Bool)
  | seq (elems : TfValueList)

/-- A sequence of Wire Values (the payload of a known list). -/
inductive TfValueList where
  | nil
  | cons (head : TfValue) (tail : TfValueList)
end

/-- The wire type of a Wire Value (tftypes Value.Type). -/
def TfValue.typ : TfValue → TfType
  | .mk t _ => t

/-- The content node of a Wire Value. -/
def TfValue.content : TfValue → TfContent
  | .mk _ c => c

/-- Modelled from the spec: whether the Wire Value is the null marker
(tftypes Value.IsNull). -/
def TfValue.IsNull (v : TfValue) : Bool :=
  match v.content with
  | .null => true
  | _ => false

/-- Modelled from the spec: whether the Wire Value is not the unknown marker
(tftypes Value.IsKnown, shallow). -/
def TfValue.IsKnown (v : TfValue) : Bool :=
  match v.content with
  | .unknown => false
  | _ => true

/-- Number of values in a wire value sequence. -/
def TfValueList.length : TfValueList → Nat
  | .nil => 0
  | .cons _ t => TfValueList.length t + 1

/-- Positional lookup in a wire value sequence. -/
def TfValueList.get? : TfValueList → Nat → Option TfValue
  | .nil, _ => Option.none
  | .cons a _, 0 => Option.some a
  | .cons _ as, n + 1 => TfValueList.get? as n

/-- Whether every value in the sequence is usable as the given element wire
type; the elementwise check of wire value validation. -/
def TfValueList.allUsableAs : TfValueList → TfType → Bool
  | .nil, _ => true
  | .cons v vs, t => TfType.UsableAs v.typ t && TfValueList.allUsableAs vs t

/-- Modelled from the spec: wire value validation (tftypes.ValidateValue) for
list containers — after all elements are converted, the full set is
validated against the container wire type; each element must conform to the
declared element wire type. -/
def ValidateValue (t : TfType) (vals : TfValueList) : Bool :=
  match t with
  | .list elemT => TfValueList.allUsableAs vals elemT
  | _ => false

/-- Severity of a diagnostic. -/
inductive Severity where
  | error
  | warning
deriving DecidableEq, Repr

/-- Modelled from the spec: a diagnostic with severity, a short summary and
free text detail — the only user facing error channel. -/
structure Diagnostic where
  severity : Severity
  summary : String
  detail : String
deriving DecidableEq, Repr

/-- A diagnostics accumulation (diag.Diagnostics). -/
abbrev Diagnostics := List Diagnostic

/-- Modelled from the spec: diag.Diagnostics.HasError — whether the
accumulation holds at least one error severity diagnostic. -/
def Diagnostics.HasError (ds : Diagnostics) : Bool :=
  ds.any fun d => d.severity == Severity.error

/-- The result of a Go call that returns a value and an error and may also
abort: ok carries the value, err carries both the returned value and the
error text, panicked models a Go panic with its message. -/
inductive GoResult (α : Type) where
  | ok (val : α)
  | err (val : α) (msg : String)
  | panicked (msg : String)
deriving DecidableEq, Repr

mutual
/-- Modelled from the spec (except for ListValue, which is translated from
types/basetypes/list_value.go): the attribute value universe used as list
elements — string and number values, the dynamic value wrapping an
optional underlying value, and nested list values. -/
inductive AttrValue where
  | str (state : ValueState) (value : String)
  | num (state : ValueState) (value : Int)
  | dyn (state : ValueState) (underlying : AttrValueOpt)
  | list (lv : ListValue)

/-- The nilable underlying value field of a dynamic value (a Go interface
field that may be nil). -/
inductive AttrValueOpt where
  | none
  | some (v : AttrValue)

/-- A Go slice of attr.Value, embedded as a cons list. -/
inductive AttrValueList where
  | nil
  | cons (head : AttrValue) (tail : AttrValueList)

/-- From types/basetypes/list_value.go: ListValue represents a list of
attr.Values, all of the same type, indicated by elementType.  state
represents whether the value is null, unknown, or known; the Go zero value
of the state field is the null state. -/
inductive ListValue where
  | mk (elements : AttrValueList) (elementType : AttrType) (state : ValueState)
end

/-- The elements field of a ListValue. -/
def ListValue.elements : ListValue → AttrValueList
  | .mk es _ _ => es

/-- The elementType field of a ListValue. -/
def ListValue.elementType : ListValue → AttrType
  | .mk _ t _ => t

/-- The state field of a ListValue. -/
def ListValue.state : ListValue → ValueState
  | .mk _ _ s => s

/-- Number of elements in a value list. -/
def AttrValueList.length : AttrValueList → Nat
  | .nil => 0
  | .cons _ t => AttrValueList.length t + 1

/-- Positional lookup in a value list. -/
def AttrValueList.get? : AttrValueList → Nat → Option AttrValue
  | .nil, _ => Option.none
  | .cons a _, 0 => Option.some a
  | .cons _ as, n + 1 => AttrValueList.get? as n

/-- Modelled from the spec: the Type method of each value kind — string and
number values report their primitive descriptor, a dynamic value reports the
dynamic descriptor, and a ListValue reports a list descriptor built from its
elementType field (ListValue.Type in list_value.go). -/
def AttrValue.type : AttrValue → AttrType
  | .str _ _ => .string
  | .num _ _ => .number
  | .dyn _ _ => .dynamic
  | .list lv => .list lv.elementType

mutual
/-- Modelled from the spec: the Equal method of the element value kinds —
same concrete kind, equal state, and, only when the state is known, equal
content.  The list case is ListValue.Equal, translated from
list_value.go. -/
def AttrValue.Equal : AttrValue → AttrValue → Bool
  | .str s v, .str s2 v2 => if s ≠ s2 then false else if s ≠ ValueStateKnown then true else v == v2
  | .num s v, .num s2 v2 => if s ≠ s2 then false else if s ≠ ValueStateKnown then true else v == v2
  | .dyn s u, .dyn s2 u2 =>
    if s ≠ s2 then false
    else if s = ValueStateKnown then AttrValueOpt.Equal u u2
    else true
  | .list lv, o => ListValue.Equal lv o
  | _, _ => false
termination_by structural a => a

/-- Equality of the optional underlying values of two known dynamic values. -/
def AttrValueOpt.Equal : AttrValueOpt → AttrValueOpt → Bool
  | .some a, .some b => AttrValue.Equal a b
  | .none, .none => true
  | _, _ => false
termination_by structural a => a

/-- Translated from ListValue.Equal in types/basetypes/list_value.go:
true iff the other value is also a ListValue, the element types are equal,
the states are equal, and, when the state is known, the element slices have
equal length and pointwise equal elements. -/
def ListValue.Equal : ListValue → AttrValue → Bool
  | .mk es t s, .list (.mk es2 t2 s2) =>
    if ¬ (AttrType.equal t t2) then false
    else if s ≠ s2 then false
    else if s ≠ ValueStateKnown then true
    else if AttrValueList.length es ≠ AttrValueList.length es2 then false
    else AttrValueList.Equal es es2
  | _, _ => false
termination_by structural l => l

/-- The element loop of ListValue.Equal: pointwise equality in order. -/
def AttrValueList.Equal : AttrValueList → AttrValueList → Bool
  | .nil, .nil => true
  | .cons a as, .cons b bs => if ¬ (AttrValue.Equal a b) then false else AttrValueList.Equal as bs
  | _, _ => false
termination_by structural a => a
end

/-- From list_value.go: NewListNull creates a List with a null value. -/
def NewListNull (elementType : AttrType) : ListValue :=
  ListValue.mk .nil elementType ValueStateNull

/-- From list_value.go: NewListUnknown creates a List with an unknown value. -/
def NewListUnknown (elementType : AttrType) : ListValue :=
  ListValue.mk .nil elementType ValueStateUnknown

/-- The error diagnostic added by NewListValue for an element whose type
disagrees with the declared element type; the detail names the declared
element type, the offending index and the type of the offending element,
exactly as formatted in list_value.go. -/
def invalidListElementDiag (elementType : AttrType) (idx : Nat) (elemType : AttrType) : Diagnostic :=
  { severity := Severity.error
  , summary := "Invalid List Element Type"
  , detail := "While creating a List value, an invalid element was detected. "
      ++ "A List must use the single, given element type. "
      ++ "This is always an issue with the provider and should be reported to the provider developers.\n\n"
      ++ "List Element Type: " ++ AttrType.typeString elementType ++ "\n"
      ++ "List Index (" ++ toString idx ++ ") Element Type: " ++ AttrType.typeString elemType }

/-- The validation loop of NewListValue: for each index and element, add an
error diagnostic when the element type does not equal the declared element
type.  idx carries the running index of the Go range loop. -/
def listElementDiags (elementType : AttrType) (idx : Nat) : AttrValueList → Diagnostics
  | .nil => []
  | .cons e rest =>
    (if ¬ (AttrType.equal elementType (AttrValue.type e))
      then [invalidListElementDiag elementType idx (AttrValue.type e)]
      else [])
    ++ listElementDiags elementType (idx + 1) rest

/-- Translated from NewListValue in list_value.go: validates that every
element type equals the given element type; with any error diagnostics it
returns an unknown List of the declared element type, otherwise a known
List holding the elements. -/
def NewListValue (elementType : AttrType) (elements : AttrValueList) : ListValue × Diagnostics :=
  let diags := listElementDiags elementType 0 elements
  if diags.HasError then (NewListUnknown elementType, diags)
  else (ListValue.mk elements elementType ValueStateKnown, diags)

/-- Rendering of a severity, as interpolated by NewListValueMust. -/
def severityString : Severity → String
  | .error => "Error"
  | .warning => "Warning"

/-- The severity, summary and detail rendering of one diagnostic inside the
abort text of NewListValueMust. -/
def diagString (d : Diagnostic) : String :=
  severityString d.severity ++ " | " ++ d.summary ++ " | " ++ d.detail

/-- Translated from NewListValueMust in list_value.go: calls NewListValue
and converts any error diagnostics into a Go panic whose text joins the
rendered diagnostics; otherwise returns the value NewListValue produced.
The Go panic is embedded as the error case of Except. -/
def NewListValueMust (elementType : AttrType) (elements : AttrValueList) : Except String ListValue :=
  let r := NewListValue elementType elements
  if Diagnostics.HasError r.2 then
    Except.error ("NewListValueMust received error(s): "
      ++ String.intercalate "\n" (r.2.map diagString))
  else Except.ok r.1

/-- Translated from ListValue.Elements in list_value.go: returns the
collection of elements (the Go code returns a fresh copy of the slice; the
copy is identity on immutable Lean lists). -/
def ListValue.Elements (l : ListValue) : AttrValueList :=
  l.elements

/-- Translated from ListValue.ElementType in list_value.go. -/
def ListValue.ElementType (l : ListValue) : AttrType :=
  l.elementType

/-- Translated from ListValue.IsNull in list_value.go. -/
def ListValue.IsNull (l : ListValue) : Bool :=
  l.state == ValueStateNull

/-- Translated from ListValue.IsUnknown in list_value.go. -/
def ListValue.IsUnknown (l : ListValue) : Bool :=
  l.state == ValueStateUnknown

/-- The retyping step of the known branch of ListValue.ToTerraformValue:
when a converted element value is a null or unknown marker carrying the
dynamic placeholder type, re-wrap it with the adopted concrete element wire
type so that the wire encoding of the composite is type consistent. -/
def resolveDynElem (elemTfType : TfType) (val : TfValue) : TfValue :=
  if val.typ.isDynamicPseudoType then
    if val.IsNull then TfValue.mk elemTfType .null
    else if ¬ val.IsKnown then TfValue.mk elemTfType .unknown
    else val
  else val

mutual
/-- Modelled from the spec: wire conversion of the element value kinds (the
ToTerraformValue methods of the collaborator value types).  A known dynamic
value converts its underlying value; null and unknown dynamic values
convert to markers carrying the dynamic placeholder type.  The list case is
ListValue.ToTerraformValue, translated from list_value.go. -/
def AttrValue.ToTerraformValue : AttrValue → GoResult TfValue
  | .str s v =>
    if s = ValueStateKnown then .ok (TfValue.mk .string (.str v))
    else if s = ValueStateNull then .ok (TfValue.mk .string .null)
    else if s = ValueStateUnknown then .ok (TfValue.mk .string .unknown)
    else .panicked "unhandled String state in ToTerraformValue"
  | .num s v =>
    if s = ValueStateKnown then .ok (TfValue.mk .number (.num v))
    else if s = ValueStateNull then .ok (TfValue.mk .number .null)
    else if s = ValueStateUnknown then .ok (TfValue.mk .number .unknown)
    else .panicked "unhandled Number state in ToTerraformValue"
  | .dyn s u =>
    if s = ValueStateKnown then
      match u with
      | .some a => AttrValue.ToTerraformValue a
      | .none => .panicked "unhandled nil underlying value in Dynamic ToTerraformValue"
    else if s = ValueStateNull then .ok (TfValue.mk .dynamicPseudoType .null)
    else if s = ValueStateUnknown then .ok (TfValue.mk .dynamicPseudoType .unknown)
    else .panicked "unhandled Dynamic state in ToTerraformValue"
  | .list lv => ListValue.ToTerraformValue lv
termination_by structural v => v

/-- Translated from ListValue.ToTerraformValue in list_value.go.  In the
known state: when the declared element type is the dynamic kind, scan the
elements in order for the first whose converted wire value does not carry
the dynamic placeholder type and adopt that wire type as the element wire
type; convert every element, re-typing null or unknown placeholder values
to the adopted type; validate the assembled sequence against the list wire
type, surfacing a validation failure as an error (returning an unknown
marker value alongside it) rather than a panic.  The null and unknown
states produce the corresponding markers; any other state is the
unreachable state panic of the default switch branch. -/
def ListValue.ToTerraformValue : ListValue → GoResult TfValue
  | .mk elements elementType state =>
    let listType := TfType.list (AttrType.terraformType elementType)
    if state = ValueStateKnown then
      match (if AttrType.isDynamic elementType
              then findElemTfType elements
              else Except.ok Option.none) with
      | .error m => .panicked m
      | .ok found =>
        let elemTfType := found.getD (AttrType.terraformType elementType)
        match convertListElems elemTfType elements with
        | .panicked m => .panicked m
        | .err _ m => .err (TfValue.mk listType .unknown) m
        | .ok vals =>
          if ValidateValue listType vals then .ok (TfValue.mk listType (.seq vals))
          else .err (TfValue.mk listType .unknown) "ValidateValue: can not use a value of a mismatched type as a list element"
    else if state = ValueStateNull then .ok (TfValue.mk listType .null)
    else if state = ValueStateUnknown then .ok (TfValue.mk listType .unknown)
    else .panicked ("unhandled List state in ToTerraformValue: " ++ toString state)
termination_by structural l => l

/-- The scanning loop of the known dynamic branch of
ListValue.ToTerraformValue: find the wire type of the first element whose
conversion succeeds and does not carry the dynamic placeholder type;
elements whose conversion fails with an error are skipped, while a Go panic
inside a conversion propagates. -/
def findElemTfType : AttrValueList → Except String (Option TfType)
  | .nil => Except.ok Option.none
  | .cons e rest =>
    match AttrValue.ToTerraformValue e with
    | .panicked m => Except.error m
    | .err _ _ => findElemTfType rest
    | .ok v =>
      if ¬ v.typ.isDynamicPseudoType then Except.ok (Option.some v.typ)
      else findElemTfType rest
termination_by structural es => es

/-- The conversion loop of the known branch of ListValue.ToTerraformValue:
convert each element in order, stopping at the first element whose
conversion returns an error, and re-type dynamic placeholder markers with
the adopted element wire type. -/
def convertListElems (elemTfType : TfType) : AttrValueList → GoResult TfValueList
  | .nil => .ok .nil
  | .cons e rest =>
    match AttrValue.ToTerraformValue e with
    | .panicked m => .panicked m
    | .err _ m => .err .nil m
    | .ok v =>
      match convertListElems elemTfType rest with
      | .panicked m => .panicked m
      | .err vs m => .err vs m
      | .ok vs => .ok (.cons (resolveDynElem elemTfType v) vs)
termination_by structural es => es
end

/-- Modelled from the spec: the two independent options of the
reflection/binding collaborator (reflect.Options), each controlling whether
an unhandled wire level null, respectively unknown, is treated as an empty
result rather than an error. -/
structure ReflectOptions where
  UnhandledNullAsEmpty : Bool
  UnhandledUnknownAsEmpty : Bool
deriving DecidableEq, Repr

/-- The invocation of the reflection/binding collaborator (reflect.Into)
performed by ListValue.ElementsAs: the target descriptor, the wire value
being decoded and the options passed through. -/
structure ReflectIntoCall where
  targetType : AttrType
  value : TfValue
  opts : ReflectOptions

/-- The observable outcome of ListValue.ElementsAs: an early return with
diagnostics, a delegation to the reflection collaborator, or a propagated
panic. -/
inductive ElementsAsResult where
  | diags (ds : Diagnostics)
  | into (call : ReflectIntoCall)
  | panicked (msg : String)

/-- Translated from ListValue.ElementsAs in list_value.go: converts the list
to its wire value, returning an error diagnostic when the conversion fails,
and otherwise delegates to reflect.Into with a list type of the declared
element type and with both the unhandled-null and the unhandled-unknown
option set to the single caller supplied allowUnhandled flag. -/
def ListValue.ElementsAs (l : ListValue) (allowUnhandled : Bool) : ElementsAsResult :=
  match l.ToTerraformValue with
  | .panicked m => .panicked m
  | .err _ m => .diags
      [{ severity := Severity.error
       , summary := "List Element Conversion Error"
       , detail := "An unexpected error was encountered trying to convert list elements. This is always an error in the provider. Please report the following to the provider developer:\n\n" ++ m }]
  | .ok values => .into
      { targetType := .list l.elementType
      , value := values
      , opts := { UnhandledNullAsEmpty := allowUnhandled
                , UnhandledUnknownAsEmpty := allowUnhandled } }

/-- Modelled from the spec: fwschema.CollectionWithDynamicTypeDiag — the
error diagnostic reported when a collection type holds a nested dynamic
type, attributed to the given schema path. -/
def CollectionWithDynamicTypeDiag (attrPath : String) : Diagnostic :=
  { severity := Severity.error
  , summary := "Invalid Schema Implementation"
  , detail := "When validating the schema, an implementation issue was found. "
      ++ "This is always an issue with the provider and should be reported to the provider developers.\n\n"
      ++ "\"" ++ attrPath ++ "\" is an attribute that contains a collection type with a nested dynamic type. "
      ++ "Dynamic types inside of collections are not currently supported in terraform-plugin-framework." }

mutual
/-- Translated from checkAttrTypeForDynamics in the schema source file: a
recursive walk over a Type Descriptor returning the collection-with-dynamic
diagnostic when the type is the dynamic kind, recursing through the element
type of lists, sets and maps, through every tuple element type and every
object attribute type with an early return on the first violation, and
returning no diagnostic for any other kind. -/
def checkAttrTypeForDynamics (attrPath : String) : AttrType → Option Diagnostic
  | .dynamic => Option.some (CollectionWithDynamicTypeDiag attrPath)
  | .list e => checkAttrTypeForDynamics attrPath e
  | .set e => checkAttrTypeForDynamics attrPath e
  | .map e => checkAttrTypeForDynamics attrPath e
  | .tuple es => checkElemTypesForDynamics attrPath es
  | .object as => checkObjAttrTypesForDynamics attrPath as
  | _ => Option.none
termination_by structural t => t

/-- The tuple loop of checkAttrTypeForDynamics: return the first violation
found among the element types. -/
def checkElemTypesForDynamics (attrPath : String) : AttrTypeList → Option Diagnostic
  | .nil => Option.none
  | .cons t ts =>
    match checkAttrTypeForDynamics attrPath t with
    | Option.some d => Option.some d
    | Option.none => checkElemTypesForDynamics attrPath ts
termination_by structural ts => ts

/-- The object loop of checkAttrTypeForDynamics: return the first violation
found among the attribute types. -/
def checkObjAttrTypesForDynamics (attrPath : String) : AttrFieldList → Option Diagnostic
  | .nil => Option.none
  | .cons _ t ts =>
    match checkAttrTypeForDynamics attrPath t with
    | Option.some d => Option.some d
    | Option.none => checkObjAttrTypesForDynamics attrPath ts
termination_by structural ts => ts
end

mutual
/-- The specification side predicate for the nested dynamic validation: a
type is, or contains nested at any depth through list, set or map element
types, tuple element types or object attribute types, the dynamic kind. -/
def AttrType.containsDynamic : AttrType → Bool
  | .dynamic => true
  | .list e => AttrType.containsDynamic e
  | .set e => AttrType.containsDynamic e
  | .map e => AttrType.containsDynamic e
  | .tuple es => AttrTypeList.containsDynamic es
  | .object as => AttrFieldList.containsDynamic as
  | _ => false
termination_by structural t => t

/-- Whether any tuple element type contains the dynamic kind. -/
def AttrTypeList.containsDynamic : AttrTypeList → Bool
  | .nil => false
  | .cons t ts => AttrType.containsDynamic t || AttrTypeList.containsDynamic ts
termination_by structural ts => ts

/-- Whether any object attribute type contains the dynamic kind. -/
def AttrFieldList.containsDynamic : AttrFieldList → Bool
  | .nil => false
  | .cons _ t ts => AttrType.containsDynamic t || AttrFieldList.containsDynamic ts
termination_by structural ts => ts
end

/-- Modelled from the spec: a value taking part in semantic equality
reconciliation, as seen through the Go interface system.  plain is a value
whose concrete type does not implement
basetypes.DynamicValuableWithSemanticEquals, so the type assertion in
ValueSemanticEqualityDynamic fails for it; withSemEq is a value whose type
implements the capability, carrying its state and the provider defined
DynamicSemanticEquals logic, abstracted as a function of the observable
state of the prior value, returning the use-prior decision and
diagnostics. -/
inductive SemanticValue where
  | plain (state : ValueState)
  | withSemEq (state : ValueState) (semEq : ValueState → Bool × Diagnostics)

/-- The state of a semantic equality participant. -/
def SemanticValue.state : SemanticValue → ValueState
  | .plain s => s
  | .withSemEq s _ => s

/-- Whether the Go type assertion to DynamicValuableWithSemanticEquals
succeeds for the value. -/
def SemanticValue.implementsSemanticEquals : SemanticValue → Bool
  | .plain _ => false
  | .withSemEq _ _ => true

/-- From internal/fwschemadata: the request carrying the prior value and the
proposed new value (the path field is not read by the dynamic handler). -/
structure ValueSemanticEqualityRequest where
  PriorValue : SemanticValue
  ProposedNewValue : SemanticValue

/-- From internal/fwschemadata: the response carrying the effective new
value and accumulated diagnostics. -/
structure ValueSemanticEqualityResponse where
  NewValue : SemanticValue
  diagnostics : Diagnostics

/-- Translated from ValueSemanticEqualityDynamic in
internal/fwschemadata/value_semantic_equality_dynamic.go: if either the
prior value or the proposed new value does not implement
DynamicValuableWithSemanticEquals, return with no changes; otherwise call
the provider defined DynamicSemanticEquals of the proposed new value with
the prior value, append its diagnostics, and on a true result substitute
the prior value as the response value.  The returned Bool records whether
the provider defined DynamicSemanticEquals capability was invoked (the
call between the two trace log statements of the Go function). -/
def ValueSemanticEqualityDynamic (req : ValueSemanticEqualityRequest)
    (resp : ValueSemanticEqualityResponse) : ValueSemanticEqualityResponse × Bool :=
  match req.PriorValue with
  | .plain _ => (resp, false)
  | .withSemEq priorState _ =>
    match req.ProposedNewValue with
    | .plain _ => (resp, false)
    | .withSemEq _ proposedSemEq =>
      let r := proposedSemEq priorState
      let resp2 := { resp with diagnostics := resp.diagnostics ++ r.2 }
      if ¬ r.1 then (resp2, true)
      else ({ resp2 with NewValue := req.PriorValue }, true)

/-- Extracts the options of the reflect.Into invocation from an ElementsAs
outcome, when ElementsAs delegated to the collaborator. -/
def ElementsAsResult.intoOpts : ElementsAsResult → Option ReflectOptions
  | .into c => Option.some c.opts
  | _ => Option.none

/-- A nilable attr.Type interface field, as in the Go struct layout: an
interface field whose Go zero value is nil. -/
inductive AttrTypeRef where
  | nil
  | mk (t : AttrType)

/-- The ListValue struct exactly as laid out in Go: the elementType field
is an interface and is therefore nilable — the Go zero value of the struct
has a nil elementType, while every constructor of list_value.go stores the
caller supplied element type.  A `ListValue` of this file corresponds to a
GoListValue whose elementType field is non-nil. -/
structure GoListValue where
  elements : AttrValueList
  elementType : AttrTypeRef
  state : ValueState

/-- Translated from ListValue.IsNull in list_value.go, on the raw struct:
it reads only the state field. -/
def GoListValue.IsNull (l : GoListValue) : Bool :=
  l.state == ValueStateNull

/-- Translated from ListValue.IsUnknown in list_value.go, on the raw
struct: it reads only the state field. -/
def GoListValue.IsUnknown (l : GoListValue) : Bool :=
  l.state == ValueStateUnknown

/-- Translated from ListValue.Elements in list_value.go, on the raw
struct: it reads only the elements field (returning a copy of the slice;
the copy is identity on immutable Lean lists). -/
def GoListValue.Elements (l : GoListValue) : AttrValueList :=
  l.elements

/-- Translated from ListValue.ToTerraformValue in list_value.go, on the
raw struct.  The function first derives the element wire type —
l.ElementType(ctx).TerraformType(ctx) at line 208 — a method call through
the elementType interface, which in Go panics with the nil dereference
runtime error when the field is nil; this dereference happens before the
state switch is reached.  With a non-nil field the function is exactly
ListValue.ToTerraformValue. -/
def GoListValue.ToTerraformValue (l : GoListValue) : GoResult TfValue :=
  match l.elementType with
  | .nil => .panicked "runtime error: invalid memory address or nil pointer dereference"
  | .mk t => ListValue.ToTerraformValue (.mk l.elements t l.state)

/-- The Go zero value of the ListValue struct, with no constructor function
called: nil elements slice, nil elementType interface, zero state. -/
def zeroListValue : GoListValue :=
  { elements := .nil, elementType := .nil, state := 0 }

/-- The prior value used against C1: it is in the Null state and its type
implements the semantic equality capability, answering use-prior. -/
def c1Prior : SemanticValue := .withSemEq ValueStateNull (fun _ => (true, []))

/-- The proposed new value used against C1: Known state, capability
implemented. -/
def c1Proposed : SemanticValue := .withSemEq ValueStateKnown (fun _ => (true, []))

/-- The request used against C1: a Null prior value and a Known proposed
new value, both implementing DynamicValuableWithSemanticEquals. -/
def c1Request : ValueSemanticEqualityRequest :=
  { PriorValue := c1Prior, ProposedNewValue := c1Proposed }

/-- The response handed to ValueSemanticEqualityDynamic against C1, holding
the proposed new value. -/
def c1Response : ValueSemanticEqualityResponse :=
  { NewValue := c1Proposed, diagnostics := [] }

theorem beq_swap {α : Type} [BEq α] [LawfulBEq α] (a b : α) : (a == b) = (b == a) := by
  cases h : a == b
  · cases h2 : b == a
    · rfl
    · have hba : b = a := by simpa using h2
      have : (a == b) = true := by simp [hba]
      rw [h] at this
      exact this
  · have hab : a = b := by simpa using h
    simp [hab]

mutual
theorem attrType_equal_refl : ∀ a : AttrType, AttrType.equal a a = true
  | .string | .number | .bool | .dynamic => rfl
  | .list a | .set a | .map a => attrType_equal_refl a
  | .tuple as => attrTypeList_equal_refl as
  | .object as => attrFieldList_equal_refl as
termination_by structural a => a

theorem attrTypeList_equal_refl : ∀ as : AttrTypeList, AttrTypeList.equal as as = true
  | .nil => rfl
  | .cons a as => by
    have h1 := attrType_equal_refl a
    have h2 := attrTypeList_equal_refl as
    show (AttrType.equal a a && AttrTypeList.equal as as) = true
    rw [h1, h2]
    rfl
termination_by structural as => as

theorem attrFieldList_equal_refl : ∀ as : AttrFieldList, AttrFieldList.equal as as = true
  | .nil => rfl
  | .cons n a as => by
    have h1 := attrType_equal_refl a
    have h2 := attrFieldList_equal_refl as
    show (n == n && AttrType.equal a a && AttrFieldList.equal as as) = true
    rw [h1, h2]
    simp
termination_by structural as => as
end

mutual
theorem attrType_equal_symm : ∀ a b : AttrType, AttrType.equal a b = AttrType.equal b a
  | .string, b => by cases b <;> rfl
  | .number, b => by cases b <;> rfl
  | .bool, b => by cases b <;> rfl
  | .dynamic, b => by cases b <;> rfl
  | .list a, b => by
    cases b <;> try rfl
    case list b2 => exact attrType_equal_symm a b2
  | .set a, b => by
    cases b <;> try rfl
    case set b2 => exact attrType_equal_symm a b2
  | .map a, b => by
    cases b <;> try rfl
    case map b2 => exact attrType_equal_symm a b2
  | .tuple as, b => by
    cases b <;> try rfl
    case tuple bs => exact attrTypeList_equal_symm as bs
  | .object as, b => by
    cases b <;> try rfl
    case object bs => exact attrFieldList_equal_symm as bs
termination_by structural a => a

theorem attrTypeList_equal_symm : ∀ as bs : AttrTypeList, AttrTypeList.equal as bs = AttrTypeList.equal bs as
  | .nil, .nil => rfl
  | .nil, .cons _ _ => rfl
  | .cons _ _, .nil => rfl
  | .cons a as, .cons b bs => by
    show (AttrType.equal a b && AttrTypeList.equal as bs)
        = (AttrType.equal b a && AttrTypeList.equal bs as)
    rw [attrType_equal_symm a b, attrTypeList_equal_symm as bs]
termination_by structural as => as

theorem attrFieldList_equal_symm : ∀ as bs : AttrFieldList, AttrFieldList.equal as bs = AttrFieldList.equal bs as
  | .nil, .nil => rfl
  | .nil, .cons _ _ _ => rfl
  | .cons _ _ _, .nil => rfl
  | .cons n a as, .cons n2 b bs => by
    show (n == n2 && AttrType.equal a b && AttrFieldList.equal as bs)
        = (n2 == n && AttrType.equal b a && AttrFieldList.equal bs as)
    rw [attrType_equal_symm a b, attrFieldList_equal_symm as bs, beq_swap n n2]
termination_by structural as => as
end

mutual
theorem tfType_equal_refl : ∀ a : TfType, TfType.equal a a = true
  | .string | .number | .bool | .dynamicPseudoType => rfl
  | .list a | .set a | .map a => tfType_equal_refl a
  | .tuple as => tfTypeList_equal_refl as
  | .object as => tfFieldList_equal_refl as
termination_by structural a => a

theorem tfTypeList_equal_refl : ∀ as : TfTypeList, TfTypeList.equal as as = true
  | .nil => rfl
  | .cons a as => by
    have h1 := tfType_equal_refl a
    have h2 := tfTypeList_equal_refl as
    show (TfType.equal a a && TfTypeList.equal as as) = true
    rw [h1, h2]
    rfl
termination_by structural as => as

theorem tfFieldList_equal_refl : ∀ as : TfFieldList, TfFieldList.equal as as = true
  | .nil => rfl
  | .cons n a as => by
    have h1 := tfType_equal_refl a
    have h2 := tfFieldList_equal_refl as
    show (n == n && TfType.equal a a && TfFieldList.equal as as) = true
    rw [h1, h2]
    simp
termination_by structural as => as
end

mutual
theorem attrValue_Equal_refl : ∀ v : AttrValue, AttrValue.Equal v v = true
  | .str s v => by
    show (if s ≠ s then false else if s ≠ ValueStateKnown then true else v == v) = true
    simp
  | .num s v => by
    show (if s ≠ s then false else if s ≠ ValueStateKnown then true else v == v) = true
    simp
  | .dyn s u => by
    have h := attrValueOpt_Equal_refl u
    show (if s ≠ s then false else if s = ValueStateKnown then AttrValueOpt.Equal u u else true) = true
    rw [h]
    simp
  | .list lv => listValue_Equal_refl lv
termination_by structural v => v

theorem attrValueOpt_Equal_refl : ∀ u : AttrValueOpt, AttrValueOpt.Equal u u = true
  | .none => rfl
  | .some a => attrValue_Equal_refl a
termination_by structural u => u

theorem listValue_Equal_refl : ∀ l : ListValue, ListValue.Equal l (.list l) = true
  | .mk es t s => by
    have h1 := attrType_equal_refl t
    have h2 := attrValueList_Equal_refl es
    show (if ¬ (AttrType.equal t t) then false
      else if s ≠ s then false
      else if s ≠ ValueStateKnown then true
      else if AttrValueList.length es ≠ AttrValueList.length es then false
      else AttrValueList.Equal es es) = true
    rw [h1, h2]
    simp
termination_by structural l => l

theorem attrValueList_Equal_refl : ∀ es : AttrValueList, AttrValueList.Equal es es = true
  | .nil => rfl
  | .cons a as => by
    have h1 := attrValue_Equal_refl a
    have h2 := attrValueList_Equal_refl as
    show (if ¬ (AttrValue.Equal a a) then false else AttrValueList.Equal as as) = true
    rw [h1, h2]
    simp
termination_by structural es => es
end

theorem attrValueList_get?_nil : ∀ i, AttrValueList.get? .nil i = Option.none := by
  intro i
  cases i <;> rfl

theorem AttrValueList.get?_some_of_lt :
    ∀ (es : AttrValueList) (i : Nat), i < AttrValueList.length es →
      ∃ e, AttrValueList.get? es i = Option.some e
  | .cons a _, 0, _ => ⟨a, rfl⟩
  | .cons _ as, i + 1, h => AttrValueList.get?_some_of_lt as i (Nat.lt_of_succ_lt_succ h)
  | .nil, i, h => absurd h (Nat.not_lt_zero i)

theorem tfValueList_get?_nil : ∀ i, TfValueList.get? .nil i = Option.none := by
  intro i
  cases i <;> rfl

theorem TfValueList.lt_of_get?_some :
    ∀ (vs : TfValueList) (i : Nat) (v : TfValue),
      TfValueList.get? vs i = Option.some v → i < TfValueList.length vs
  | .cons _ _, 0, _, _ => Nat.succ_pos _
  | .cons _ as, i + 1, v, h => Nat.succ_lt_succ (TfValueList.lt_of_get?_some as i v h)
  | .nil, i, v, h => by rw [tfValueList_get?_nil] at h; cases h

theorem AttrValueList.Equal_iff : ∀ as bs : AttrValueList,
    AttrValueList.Equal as bs = true ↔
      (AttrValueList.length as = AttrValueList.length bs
        ∧ ∀ i a b, AttrValueList.get? as i = Option.some a →
            AttrValueList.get? bs i = Option.some b → AttrValue.Equal a b = true)
  | .nil, .nil => by
    constructor
    · intro _
      refine ⟨rfl, ?_⟩
      intro i a b ha _
      rw [attrValueList_get?_nil] at ha
      cases ha
    · intro _
      rfl
  | .nil, .cons b bs => by
    constructor
    · intro h
      cases h
    · intro h
      cases h.1
  | .cons a as, .nil => by
    constructor
    · intro h
      cases h
    · intro h
      cases h.1
  | .cons a as, .cons b bs => by
    show (if ¬ (AttrValue.Equal a b) then false else AttrValueList.Equal as bs) = true ↔ _
    by_cases hab : AttrValue.Equal a b = true
    · rw [if_neg (fun hn => hn hab), AttrValueList.Equal_iff as bs]
      constructor
      · intro h
        refine ⟨?_, ?_⟩
        · show AttrValueList.length as + 1 = AttrValueList.length bs + 1
          rw [h.1]
        · intro i x y hx hy
          cases i with
          | zero =>
            cases hx
            cases hy
            exact hab
          | succ n =>
            exact h.2 n x y hx hy
      · intro h
        refine ⟨?_, ?_⟩
        · have h1 : AttrValueList.length as + 1 = AttrValueList.length bs + 1 := h.1
          exact Nat.succ_injective h1
        · intro i x y hx hy
          exact h.2 (i + 1) x y hx hy
    · rw [if_pos hab]
      constructor
      · intro h
        cases h
      · intro h
        exact absurd (h.2 0 a b rfl rfl) hab
termination_by structural as => as

mutual
theorem attrValue_Equal_symm : ∀ a b : AttrValue, AttrValue.Equal a b = AttrValue.Equal b a
  | .str s v, b => by
    cases b with
    | str s2 v2 =>
      show (if s ≠ s2 then false else if s ≠ ValueStateKnown then true else v == v2)
        = (if s2 ≠ s then false else if s2 ≠ ValueStateKnown then true else v2 == v)
      by_cases h : s = s2
      · subst h
        simp [beq_swap v v2]
      · simp [h, Ne.symm h]
    | num s2 v2 => rfl
    | dyn s2 u2 => rfl
    | list lv =>
      obtain ⟨es2, t2, st2⟩ := lv
      rfl
  | .num s v, b => by
    cases b with
    | num s2 v2 =>
      show (if s ≠ s2 then false else if s ≠ ValueStateKnown then true else v == v2)
        = (if s2 ≠ s then false else if s2 ≠ ValueStateKnown then true else v2 == v)
      by_cases h : s = s2
      · subst h
        simp [beq_swap v v2]
      · simp [h, Ne.symm h]
    | str s2 v2 => rfl
    | dyn s2 u2 => rfl
    | list lv =>
      obtain ⟨es2, t2, st2⟩ := lv
      rfl
  | .dyn s u, b => by
    cases b with
    | dyn s2 u2 =>
      show (if s ≠ s2 then false else if s = ValueStateKnown then AttrValueOpt.Equal u u2 else true)
        = (if s2 ≠ s then false else if s2 = ValueStateKnown then AttrValueOpt.Equal u2 u else true)
      by_cases h : s = s2
      · subst h
        by_cases hk : s = ValueStateKnown
        · simp [hk, attrValueOpt_Equal_symm u u2]
        · simp [hk]
      · simp [h, Ne.symm h]
    | str s2 v2 => rfl
    | num s2 v2 => rfl
    | list lv =>
      obtain ⟨es2, t2, st2⟩ := lv
      rfl
  | .list lv, b => listValue_Equal_symm lv b
termination_by structural a => a

theorem attrValueOpt_Equal_symm : ∀ u u2 : AttrValueOpt, AttrValueOpt.Equal u u2 = AttrValueOpt.Equal u2 u
  | .none, .none => rfl
  | .none, .some _ => rfl
  | .some _, .none => rfl
  | .some a, .some b => attrValue_Equal_symm a b
termination_by structural u => u

theorem listValue_Equal_symm :
    ∀ (l : ListValue) (o : AttrValue), ListValue.Equal l o = AttrValue.Equal o (.list l)
  | .mk es t s, .str s2 v2 => rfl
  | .mk es t s, .num s2 v2 => rfl
  | .mk es t s, .dyn s2 u2 => rfl
  | .mk es t s, .list (.mk es2 t2 s2) => by
    show (if ¬ (AttrType.equal t t2) then false
        else if s ≠ s2 then false
        else if s ≠ ValueStateKnown then true
        else if AttrValueList.length es ≠ AttrValueList.length es2 then false
        else AttrValueList.Equal es es2)
      = (if ¬ (AttrType.equal t2 t) then false
        else if s2 ≠ s then false
        else if s2 ≠ ValueStateKnown then true
        else if AttrValueList.length es2 ≠ AttrValueList.length es then false
        else AttrValueList.Equal es2 es)
    rw [attrType_equal_symm t2 t]
    by_cases h1 : AttrType.equal t t2 = true
    · by_cases h2 : s = s2
      · subst h2
        by_cases h3 : s = ValueStateKnown
        · by_cases h4 : AttrValueList.length es = AttrValueList.length es2
          · simp [h1, h3, h4, attrValueList_Equal_symm es es2]
          · simp [h1, h3, h4, Ne.symm h4]
        · simp [h1, h3]
      · simp [h1, h2, Ne.symm h2]
    · simp [h1]
termination_by structural l => l

theorem attrValueList_Equal_symm :
    ∀ as bs : AttrValueList, AttrValueList.Equal as bs = AttrValueList.Equal bs as
  | .nil, .nil => rfl
  | .nil, .cons _ _ => rfl
  | .cons _ _, .nil => rfl
  | .cons a as, .cons b bs => by
    show (if ¬ (AttrValue.Equal a b) then false else AttrValueList.Equal as bs)
      = (if ¬ (AttrValue.Equal b a) then false else AttrValueList.Equal bs as)
    rw [attrValue_Equal_symm a b, attrValueList_Equal_symm as bs]
termination_by structural as => as
end

mutual
theorem checkAttrTypeForDynamics_isSome : ∀ (p : String) (t : AttrType),
    (checkAttrTypeForDynamics p t).isSome = AttrType.containsDynamic t
  | _, .string => rfl
  | _, .number => rfl
  | _, .bool => rfl
  | _, .dynamic => rfl
  | p, .list e => checkAttrTypeForDynamics_isSome p e
  | p, .set e => checkAttrTypeForDynamics_isSome p e
  | p, .map e => checkAttrTypeForDynamics_isSome p e
  | p, .tuple es => checkElemTypesForDynamics_isSome p es
  | p, .object as => checkObjAttrTypesForDynamics_isSome p as
termination_by structural p t => t

theorem checkElemTypesForDynamics_isSome : ∀ (p : String) (ts : AttrTypeList),
    (checkElemTypesForDynamics p ts).isSome = AttrTypeList.containsDynamic ts
  | _, .nil => rfl
  | p, .cons t ts => by
    have h1 := checkAttrTypeForDynamics_isSome p t
    have h2 := checkElemTypesForDynamics_isSome p ts
    show (match checkAttrTypeForDynamics p t with
          | Option.some d => Option.some d
          | Option.none => checkElemTypesForDynamics p ts).isSome
        = (AttrType.containsDynamic t || AttrTypeList.containsDynamic ts)
    cases hc : checkAttrTypeForDynamics p t with
    | some d =>
      have ht : AttrType.containsDynamic t = true := by rw [← h1, hc]; rfl
      rw [ht]
      simp
    | none =>
      have ht : AttrType.containsDynamic t = false := by rw [← h1, hc]; rfl
      rw [ht]
      simpa using h2
termination_by structural p ts => ts

theorem checkObjAttrTypesForDynamics_isSome : ∀ (p : String) (ts : AttrFieldList),
    (checkObjAttrTypesForDynamics p ts).isSome = AttrFieldList.containsDynamic ts
  | _, .nil => rfl
  | p, .cons _ t ts => by
    have h1 := checkAttrTypeForDynamics_isSome p t
    have h2 := checkObjAttrTypesForDynamics_isSome p ts
    show (match checkAttrTypeForDynamics p t with
          | Option.some d => Option.some d
          | Option.none => checkObjAttrTypesForDynamics p ts).isSome
        = (AttrType.containsDynamic t || AttrFieldList.containsDynamic ts)
    cases hc : checkAttrTypeForDynamics p t with
    | some d =>
      have ht : AttrType.containsDynamic t = true := by rw [← h1, hc]; rfl
      rw [ht]
      simp
    | none =>
      have ht : AttrType.containsDynamic t = false := by rw [← h1, hc]; rfl
      rw [ht]
      simpa using h2
termination_by structural p ts => ts
end

mutual
theorem checkAttrTypeForDynamics_diag : ∀ (p : String) (t : AttrType) (d : Diagnostic),
    checkAttrTypeForDynamics p t = Option.some d → d = CollectionWithDynamicTypeDiag p
  | _, .string, _, h => by cases h
  | _, .number, _, h => by cases h
  | _, .bool, _, h => by cases h
  | _, .dynamic, _, h => by cases h; rfl
  | p, .list e, d, h => checkAttrTypeForDynamics_diag p e d h
  | p, .set e, d, h => checkAttrTypeForDynamics_diag p e d h
  | p, .map e, d, h => checkAttrTypeForDynamics_diag p e d h
  | p, .tuple es, d, h => checkElemTypesForDynamics_diag p es d h
  | p, .object as, d, h => checkObjAttrTypesForDynamics_diag p as d h
termination_by structural p t d h => t

theorem checkElemTypesForDynamics_diag : ∀ (p : String) (ts : AttrTypeList) (d : Diagnostic),
    checkElemTypesForDynamics p ts = Option.some d → d = CollectionWithDynamicTypeDiag p
  | _, .nil, _, h => by cases h
  | p, .cons t ts, d, h => by
    revert h
    show (match checkAttrTypeForDynamics p t with
          | Option.some d2 => Option.some d2
          | Option.none => checkElemTypesForDynamics p ts) = Option.some d → _
    cases hc : checkAttrTypeForDynamics p t with
    | some d2 =>
      intro h
      injection h with hd
      exact hd ▸ checkAttrTypeForDynamics_diag p t d2 hc
    | none =>
      intro h
      exact checkElemTypesForDynamics_diag p ts d h
termination_by structural p ts d h => ts

theorem checkObjAttrTypesForDynamics_diag : ∀ (p : String) (ts : AttrFieldList) (d : Diagnostic),
    checkObjAttrTypesForDynamics p ts = Option.some d → d = CollectionWithDynamicTypeDiag p
  | _, .nil, _, h => by cases h
  | p, .cons _ t ts, d, h => by
    revert h
    show (match checkAttrTypeForDynamics p t with
          | Option.some d2 => Option.some d2
          | Option.none => checkObjAttrTypesForDynamics p ts) = Option.some d → _
    cases hc : checkAttrTypeForDynamics p t with
    | some d2 =>
      intro h
      injection h with hd
      exact hd ▸ checkAttrTypeForDynamics_diag p t d2 hc
    | none =>
      intro h
      exact checkObjAttrTypesForDynamics_diag p ts d h
termination_by structural p ts d h => ts
end

theorem listElementDiags_mem :
    ∀ (t : AttrType) (start i : Nat) (es : AttrValueList) (e : AttrValue),
      AttrValueList.get? es i = Option.some e →
      AttrType.equal t (AttrValue.type e) = false →
      invalidListElementDiag t (start + i) (AttrValue.type e) ∈ listElementDiags t start es
  | t, start, i, .nil, e, h, _ => by
    rw [attrValueList_get?_nil] at h
    cases h
  | t, start, 0, .cons a rest, e, h, hne => by
    cases h
    rw [Nat.add_zero]
    show invalidListElementDiag t start (AttrValue.type a)
      ∈ (if ¬ (AttrType.equal t (AttrValue.type a))
          then [invalidListElementDiag t start (AttrValue.type a)] else [])
        ++ listElementDiags t (start + 1) rest
    rw [if_pos (by rw [hne]; exact Bool.false_ne_true)]
    exact List.mem_append_left _ (List.mem_singleton.mpr rfl)
  | t, start, i + 1, .cons a rest, e, h, hne => by
    have ih := listElementDiags_mem t (start + 1) i rest e h hne
    show invalidListElementDiag t (start + (i + 1)) (AttrValue.type e)
      ∈ (if ¬ (AttrType.equal t (AttrValue.type a))
          then [invalidListElementDiag t start (AttrValue.type a)] else [])
        ++ listElementDiags t (start + 1) rest
    have harith : start + (i + 1) = (start + 1) + i := by omega
    rw [harith]
    exact List.mem_append_right _ ih

theorem Diagnostics.hasError_of_mem :
    ∀ (ds : Diagnostics) (d : Diagnostic), d ∈ ds → d.severity = Severity.error →
      Diagnostics.HasError ds = true := by
  intro ds d hm hs
  show ds.any (fun d2 => d2.severity == Severity.error) = true
  rw [List.any_eq_true]
  exact ⟨d, hm, by rw [hs]; rfl⟩

theorem TfType.UsableAs_dpt : ∀ t : TfType, TfType.UsableAs t .dynamicPseudoType = true := by
  intro t
  cases t <;> rfl

theorem TfValueList.allUsableAs_dpt :
    ∀ vs : TfValueList, TfValueList.allUsableAs vs .dynamicPseudoType = true
  | .nil => rfl
  | .cons v vs => by
    have h := TfValueList.allUsableAs_dpt vs
    show (TfType.UsableAs v.typ .dynamicPseudoType && TfValueList.allUsableAs vs .dynamicPseudoType) = true
    rw [h, TfType.UsableAs_dpt]
    rfl

theorem ListValue.toTf_typ_not_dpt :
    ∀ (l : ListValue) (v : TfValue), ListValue.ToTerraformValue l = GoResult.ok v →
      v.typ.isDynamicPseudoType = false := by
  intro l v h
  obtain ⟨es, t, s⟩ := l
  simp only [ListValue.ToTerraformValue] at h
  split at h
  · split at h
    · cases h
    · split at h
      · cases h
      · cases h
      · split at h
        · cases h
          rfl
        · cases h
  · split at h
    · cases h
      rfl
    · split at h
      · cases h
        rfl
      · cases h

theorem AttrValue.toTf_dpt_null_or_unknown :
    ∀ (a : AttrValue) (v : TfValue), AttrValue.ToTerraformValue a = GoResult.ok v →
      v.typ.isDynamicPseudoType = true → v.IsNull = true ∨ v.IsKnown = false
  | .str s v0, v, h, hd => by
    simp only [AttrValue.ToTerraformValue] at h
    split at h
    · cases h
      cases hd
    · split at h
      · cases h
        cases hd
      · split at h
        · cases h
          cases hd
        · cases h
  | .num s v0, v, h, hd => by
    simp only [AttrValue.ToTerraformValue] at h
    split at h
    · cases h
      cases hd
    · split at h
      · cases h
        cases hd
      · split at h
        · cases h
          cases hd
        · cases h
  | .dyn s u, v, h, hd => by
    cases u with
    | none =>
      simp only [AttrValue.ToTerraformValue] at h
      split at h
      · cases h
      · split at h
        · cases h
          exact Or.inl rfl
        · split at h
          · cases h
            exact Or.inr rfl
          · cases h
    | some a =>
      simp only [AttrValue.ToTerraformValue] at h
      split at h
      · exact AttrValue.toTf_dpt_null_or_unknown a v h hd
      · split at h
        · cases h
          exact Or.inl rfl
        · split at h
          · cases h
            exact Or.inr rfl
          · cases h
  | .list lv, v, h, hd => by
    have hn := ListValue.toTf_typ_not_dpt lv v h
    rw [hn] at hd
    cases hd
termination_by structural a => a

theorem convertListElems_ok :
    ∀ (t : TfType) (es : AttrValueList),
      (∀ i e, AttrValueList.get? es i = Option.some e →
        ∃ v, AttrValue.ToTerraformValue e = GoResult.ok v) →
      ∃ vals : TfValueList, convertListElems t es = .ok vals
        ∧ TfValueList.length vals = AttrValueList.length es
        ∧ (∀ i e v, AttrValueList.get? es i = Option.some e →
            AttrValue.ToTerraformValue e = GoResult.ok v →
            TfValueList.get? vals i = Option.some (resolveDynElem t v))
  | t, .nil, _ => by
    refine ⟨.nil, rfl, rfl, ?_⟩
    intro i e v h _
    rw [attrValueList_get?_nil] at h
    cases h
  | t, .cons e rest, hconv => by
    obtain ⟨v0, hv0⟩ := hconv 0 e rfl
    obtain ⟨vals, hc, hl, hp⟩ :=
      convertListElems_ok t rest (fun i x hx => hconv (i + 1) x hx)
    refine ⟨.cons (resolveDynElem t v0) vals, ?_, ?_, ?_⟩
    · show (match AttrValue.ToTerraformValue e with
        | .panicked m => .panicked m
        | .err _ m => GoResult.err .nil m
        | .ok v =>
          match convertListElems t rest with
          | .panicked m => .panicked m
          | .err vs m => .err vs m
          | .ok vs => .ok (.cons (resolveDynElem t v) vs))
        = GoResult.ok (.cons (resolveDynElem t v0) vals)
      rw [hv0, hc]
    · show TfValueList.length vals + 1 = AttrValueList.length rest + 1
      rw [hl]
    · intro i x v hx hv
      cases i with
      | zero =>
        cases hx
        rw [hv0] at hv
        cases hv
        rfl
      | succ n =>
        exact hp n x v hx hv
termination_by structural t es => es

theorem ite_pair_snd {α : Type} (c : Prop) [Decidable c] (x y : α) :
    (if c then (x, true) else (y, true)).2 = true := by
  split <;> rfl

/-- C10: the default-constructed Go zero value of the ListValue struct —
nil elements slice, nil elementType interface, zero state — is in the Null
state: IsNull is true, IsUnknown is false, Elements is the empty
collection, and its state is one of the three defined states, so the
unreachable-state panic branch (the default switch case) of
ToTerraformValue is not reached for it.  What ToTerraformValue does reach
on the zero value is the earlier nil interface dereference of line 208,
raised while deriving the element wire type, before the state switch: the
panic it raises is the Go runtime nil dereference error, not the
unhandled-state panic of the default branch.  The final conjunct records
that the zero state never routes the switch to the default branch: for
every non-nil element type, a value with nil elements and the zero state
takes the null case, producing the null wire marker. -/
theorem claim_C10 :
    zeroListValue.IsNull = true
    ∧ zeroListValue.IsUnknown = false
    ∧ zeroListValue.Elements = .nil
    ∧ (zeroListValue.state = ValueStateNull
        ∨ zeroListValue.state = ValueStateUnknown
        ∨ zeroListValue.state = ValueStateKnown)
    ∧ GoListValue.ToTerraformValue zeroListValue
        = GoResult.panicked "runtime error: invalid memory address or nil pointer dereference"
    ∧ (∀ t : AttrType, ListValue.ToTerraformValue (ListValue.mk .nil t ValueStateNull)
        = GoResult.ok (TfValue.mk (.list (AttrType.terraformType t)) .null)) :=
  ⟨rfl, rfl, rfl, Or.inl rfl, rfl, fun _ => rfl⟩

/-- C5: ListValue equality is reflexive — Equal of a value with itself is
true — and symmetric — Equal of a and (the wrapping of) b returns the same
boolean as Equal of b and (the wrapping of) a, and more generally Equal of
a list with any attribute value agrees with the Equal of that value with
the list. -/
theorem claim_C5 :
    (∀ l : ListValue, ListValue.Equal l (.list l) = true)
    ∧ (∀ a b : ListValue, ListValue.Equal a (.list b) = ListValue.Equal b (.list a))
    ∧ (∀ (l : ListValue) (o : AttrValue), ListValue.Equal l o = AttrValue.Equal o (.list l)) := by
  refine ⟨listValue_Equal_refl, ?_, listValue_Equal_symm⟩
  intro a b
  rw [listValue_Equal_symm a (.list b)]
  rfl

/-- C7: NewListValueMust is a thin wrapper over NewListValue: when the
returned diagnostics hold an error it aborts with a panic whose text joins
the rendered diagnostics behind a fixed prefix, and otherwise it returns
exactly the value NewListValue produced. -/
theorem claim_C7 : ∀ (elementType : AttrType) (elements : AttrValueList),
    (Diagnostics.HasError (NewListValue elementType elements).2 = true →
      NewListValueMust elementType elements
        = Except.error ("NewListValueMust received error(s): "
            ++ String.intercalate "\n" (((NewListValue elementType elements).2).map diagString)))
    ∧ (Diagnostics.HasError (NewListValue elementType elements).2 = false →
      NewListValueMust elementType elements = Except.ok (NewListValue elementType elements).1) := by
  intro t es
  constructor
  · intro h
    simp only [NewListValueMust]
    rw [if_pos h]
  · intro h
    simp only [NewListValueMust]
    rw [if_neg (by intro hh; rw [h] at hh; cases hh)]

set_option maxRecDepth 8192 in
theorem claim_C7_witness :
    NewListValueMust .string (.cons (.num ValueStateKnown 1) .nil)
      = Except.error ("NewListValueMust received error(s): "
          ++ String.intercalate "\n"
              (((NewListValue .string (.cons (.num ValueStateKnown 1) .nil)).2).map diagString)) :=
  (claim_C7 .string (.cons (.num ValueStateKnown 1) .nil)).1 (by rfl)

/-- C8: checkAttrTypeForDynamics is a pure recursive structural walk that
returns a diagnostic exactly when the given Type Descriptor is the dynamic
kind or contains one nested at any depth through list, set or map element
types, tuple element types, or object attribute types; every diagnostic it
returns is the collection-with-dynamic-type diagnostic at the given path
(so the first violation found determines the one reported), and it returns
no diagnostic otherwise. -/
theorem claim_C8 : ∀ (attrPath : String) (t : AttrType),
    ((checkAttrTypeForDynamics attrPath t).isSome = AttrType.containsDynamic t)
    ∧ (∀ d, checkAttrTypeForDynamics attrPath t = Option.some d →
        d = CollectionWithDynamicTypeDiag attrPath) :=
  fun p t => ⟨checkAttrTypeForDynamics_isSome p t,
    fun d h => checkAttrTypeForDynamics_diag p t d h⟩

theorem claim_C8_witness :
    (checkAttrTypeForDynamics "example_attribute" (.list .dynamic)).isSome = true
    ∧ CollectionWithDynamicTypeDiag "example_attribute"
        = CollectionWithDynamicTypeDiag "example_attribute" :=
  ⟨by rw [(claim_C8 "example_attribute" (.list .dynamic)).1]; rfl,
   (claim_C8 "example_attribute" (.list .dynamic)).2 _ rfl⟩

/-- C1, counterexample: the claim states that ValueSemanticEqualityDynamic
never calls the provider-defined DynamicSemanticEquals capability and
leaves the response value unchanged whenever either side is Null or
Unknown.  On a request whose PriorValue is Null (and whose sides both
implement the capability), the function does invoke the capability (the
instrumentation boolean is true) and replaces the response value with the
Null prior — the response value is not left unchanged. -/
theorem claim_C1_counterexample :
    c1Prior.state = ValueStateNull
    ∧ (ValueSemanticEqualityDynamic c1Request c1Response).2 = true
    ∧ ((ValueSemanticEqualityDynamic c1Request c1Response).1.NewValue).state = ValueStateNull
    ∧ c1Response.NewValue.state = ValueStateKnown :=
  ⟨rfl, rfl, rfl, rfl⟩

/-- C1, amended: ValueSemanticEqualityDynamic itself performs no state
check — it invokes the provider-defined DynamicSemanticEquals exactly when
both PriorValue and ProposedNewValue implement
DynamicValuableWithSemanticEquals, regardless of Null, Unknown or Known
state; when either side does not implement the capability it never invokes
it and leaves the response unchanged.  (Known-state gating is the business
of the calling engine, not of this function.) -/
theorem claim_C1 : ∀ (req : ValueSemanticEqualityRequest) (resp : ValueSemanticEqualityResponse),
    ((ValueSemanticEqualityDynamic req resp).2 = true ↔
      (req.PriorValue.implementsSemanticEquals = true
        ∧ req.ProposedNewValue.implementsSemanticEquals = true))
    ∧ ((req.PriorValue.implementsSemanticEquals = false
        ∨ req.ProposedNewValue.implementsSemanticEquals = false) →
      ValueSemanticEqualityDynamic req resp = (resp, false)) := by
  intro req resp
  obtain ⟨pv, nv⟩ := req
  cases pv with
  | plain s =>
    refine ⟨⟨(fun h => by cases h), (fun h => by cases h.1)⟩, fun _ => rfl⟩
  | withSemEq s f =>
    cases nv with
    | plain s2 =>
      refine ⟨⟨(fun h => by cases h), (fun h => by cases h.2)⟩, ?_⟩
      intro _
      rfl
    | withSemEq s2 f2 =>
      refine ⟨⟨fun _ => ⟨rfl, rfl⟩, fun _ => ?_⟩, ?_⟩
      · exact ite_pair_snd _ _ _
      · intro h
        cases h with
        | inl h => cases h
        | inr h => cases h

theorem claim_C1_witness :
    ValueSemanticEqualityDynamic
        { PriorValue := SemanticValue.plain ValueStateKnown, ProposedNewValue := c1Proposed }
        c1Response
      = (c1Response, false) :=
  (claim_C1 { PriorValue := SemanticValue.plain ValueStateKnown, ProposedNewValue := c1Proposed }
    c1Response).2 (Or.inl rfl)

/-- C6, counterexample: the claim states ElementsAs passes two independent,
caller-supplied flags to the reflection collaborator.  The accessor takes a
single boolean: enumerating both possible caller inputs on a concrete list,
the options delivered to the collaborator always carry the same boolean in
both fields, and no caller input produces the combination
unhandled-null-as-empty true with unhandled-unknown-as-empty false. -/
theorem claim_C6_counterexample :
    ((ListValue.ElementsAs (NewListNull .string) true).intoOpts
        = Option.some { UnhandledNullAsEmpty := true, UnhandledUnknownAsEmpty := true })
    ∧ ((ListValue.ElementsAs (NewListNull .string) false).intoOpts
        = Option.some { UnhandledNullAsEmpty := false, UnhandledUnknownAsEmpty := false })
    ∧ ¬ ∃ b : Bool, (ListValue.ElementsAs (NewListNull .string) b).intoOpts
        = Option.some { UnhandledNullAsEmpty := true, UnhandledUnknownAsEmpty := false } := by
  refine ⟨rfl, rfl, ?_⟩
  intro ⟨b, hb⟩
  cases b with
  | true => cases hb
  | false => cases hb

/-- C6, amended: ElementsAs accepts one caller-supplied flag
(allowUnhandled) and passes it through as the value of both the
unhandled-null-as-empty and the unhandled-unknown-as-empty option of the
reflection collaborator, over a list type of the declared element type;
the two behaviors therefore cannot be chosen independently of each
other. -/
theorem claim_C6 : ∀ (l : ListValue) (allowUnhandled : Bool) (c : ReflectIntoCall),
    ListValue.ElementsAs l allowUnhandled = .into c →
    c.opts.UnhandledNullAsEmpty = allowUnhandled
    ∧ c.opts.UnhandledUnknownAsEmpty = allowUnhandled
    ∧ c.targetType = .list l.elementType := by
  intro l b c h
  revert h
  show (match l.ToTerraformValue with
    | .panicked m => ElementsAsResult.panicked m
    | .err _ m => ElementsAsResult.diags
        [{ severity := Severity.error
         , summary := "List Element Conversion Error"
         , detail := "An unexpected error was encountered trying to convert list elements. This is always an error in the provider. Please report the following to the provider developer:\n\n" ++ m }]
    | .ok values => ElementsAsResult.into
        { targetType := .list l.elementType
        , value := values
        , opts := { UnhandledNullAsEmpty := b, UnhandledUnknownAsEmpty := b } }) = .into c → _
  cases l.ToTerraformValue with
  | panicked m => intro h; cases h
  | err v m => intro h; cases h
  | ok v =>
    intro h
    injection h with h2
    rw [← h2]
    exact ⟨rfl, rfl, rfl⟩

theorem claim_C6_witness :
    ({ targetType := .list .string
     , value := TfValue.mk (.list .string) .null
     , opts := { UnhandledNullAsEmpty := true, UnhandledUnknownAsEmpty := true } }
        : ReflectIntoCall).opts.UnhandledNullAsEmpty = true
    ∧ ({ targetType := .list .string
       , value := TfValue.mk (.list .string) .null
       , opts := { UnhandledNullAsEmpty := true, UnhandledUnknownAsEmpty := true } }
          : ReflectIntoCall).opts.UnhandledUnknownAsEmpty = true
    ∧ ({ targetType := .list .string
       , value := TfValue.mk (.list .string) .null
       , opts := { UnhandledNullAsEmpty := true, UnhandledUnknownAsEmpty := true } }
          : ReflectIntoCall).targetType = .list (NewListNull .string).elementType :=
  claim_C6 (NewListNull .string) true _ rfl

theorem AttrValueList.get?_cons_succ (a : AttrValue) (as : AttrValueList) (n : Nat) :
    AttrValueList.get? (.cons a as) (n + 1) = AttrValueList.get? as n := rfl

/-- C3: constructing a known list with an element whose own type disagrees
with the declared element type yields an error diagnostic whose detail
names the offending index and both types, and NewListValue returns the
unknown ListValue of the declared element type — state unknown and no
stored elements, never a partially populated known value. -/
theorem claim_C3 : ∀ (elementType : AttrType) (elements : AttrValueList) (i : Nat) (e : AttrValue),
    AttrValueList.get? elements i = Option.some e →
    AttrType.equal elementType (AttrValue.type e) = false →
    (NewListValue elementType elements).1 = NewListUnknown elementType
    ∧ (NewListValue elementType elements).1.state = ValueStateUnknown
    ∧ (NewListValue elementType elements).1.elements = .nil
    ∧ ∃ d ∈ (NewListValue elementType elements).2,
        d.severity = Severity.error
        ∧ d.summary = "Invalid List Element Type"
        ∧ d.detail = "While creating a List value, an invalid element was detected. "
            ++ "A List must use the single, given element type. "
            ++ "This is always an issue with the provider and should be reported to the provider developers.\n\n"
            ++ "List Element Type: " ++ AttrType.typeString elementType ++ "\n"
            ++ "List Index (" ++ toString i ++ ") Element Type: "
            ++ AttrType.typeString (AttrValue.type e) := by
  intro t es i e hget hne
  have hmem := listElementDiags_mem t 0 i es e hget hne
  rw [Nat.zero_add] at hmem
  have herr : Diagnostics.HasError (listElementDiags t 0 es) = true :=
    Diagnostics.hasError_of_mem _ _ hmem rfl
  have hfst : NewListValue t es = (NewListUnknown t, listElementDiags t 0 es) := by
    simp only [NewListValue]
    rw [if_pos herr]
  refine ⟨?_, ?_, ?_, ?_⟩
  · rw [hfst]
  · rw [hfst]
    rfl
  · rw [hfst]
    rfl
  · rw [hfst]
    exact ⟨invalidListElementDiag t i (AttrValue.type e), hmem, rfl, rfl, rfl⟩

set_option maxRecDepth 8192 in
theorem claim_C3_witness :
    (NewListValue .string (.cons (.num ValueStateKnown 1) .nil)).1 = NewListUnknown .string
    ∧ (NewListValue .string (.cons (.num ValueStateKnown 1) .nil)).1.state = ValueStateUnknown
    ∧ (NewListValue .string (.cons (.num ValueStateKnown 1) .nil)).1.elements = .nil
    ∧ ∃ d ∈ (NewListValue .string (.cons (.num ValueStateKnown 1) .nil)).2,
        d.severity = Severity.error
        ∧ d.summary = "Invalid List Element Type"
        ∧ d.detail = "While creating a List value, an invalid element was detected. "
            ++ "A List must use the single, given element type. "
            ++ "This is always an issue with the provider and should be reported to the provider developers.\n\n"
            ++ "List Element Type: " ++ AttrType.typeString .string ++ "\n"
            ++ "List Index (" ++ toString 0 ++ ") Element Type: "
            ++ AttrType.typeString (AttrValue.type (.num ValueStateKnown 1)) :=
  claim_C3 .string (.cons (.num ValueStateKnown 1) .nil) 0 (.num ValueStateKnown 1) rfl rfl

/-- C4: for a known ListValue whose declared element type is the dynamic
kind, ToTerraformValue scans the elements in order and adopts as the
element wire type the wire type of the first element whose converted wire
value is not a dynamic placeholder; provided every element converts
successfully and every non-placeholder conversion carries the adopted
type, the conversion succeeds, each produced element is the conversion of
the corresponding input re-typed by the adopted type — null and unknown
placeholder elements become null and unknown markers of the adopted
concrete type — and every produced element carries the adopted wire type
(the container itself keeps the declared dynamic placeholder element
type). -/
theorem claim_C4 : ∀ (elements : AttrValueList) (t : TfType),
    findElemTfType elements = Except.ok (Option.some t) →
    (∀ i e, AttrValueList.get? elements i = Option.some e →
      ∃ v, AttrValue.ToTerraformValue e = GoResult.ok v
        ∧ (v.typ.isDynamicPseudoType = false → v.typ = t)) →
    ∃ vals : TfValueList,
      ListValue.ToTerraformValue (.mk elements .dynamic ValueStateKnown)
        = GoResult.ok (TfValue.mk (.list .dynamicPseudoType) (.seq vals))
      ∧ TfValueList.length vals = AttrValueList.length elements
      ∧ (∀ i e v, AttrValueList.get? elements i = Option.some e →
          AttrValue.ToTerraformValue e = GoResult.ok v →
          TfValueList.get? vals i = Option.some (resolveDynElem t v))
      ∧ (∀ i v, TfValueList.get? vals i = Option.some v → v.typ = t) := by
  intro es t hfound hconv
  obtain ⟨vals, hc, hl, hp⟩ :=
    convertListElems_ok t es (fun i e h => (hconv i e h).elim (fun v hv => ⟨v, hv.1⟩))
  refine ⟨vals, ?_, hl, hp, ?_⟩
  · have step1 : ListValue.ToTerraformValue (.mk es .dynamic ValueStateKnown)
        = (match findElemTfType es with
          | Except.error m => GoResult.panicked m
          | Except.ok found =>
            match convertListElems (found.getD (AttrType.terraformType .dynamic)) es with
            | .panicked m => .panicked m
            | .err _ m => GoResult.err (TfValue.mk (.list .dynamicPseudoType) .unknown) m
            | .ok vals2 =>
              if ValidateValue (.list .dynamicPseudoType) vals2
                then GoResult.ok (TfValue.mk (.list .dynamicPseudoType) (.seq vals2))
                else GoResult.err (TfValue.mk (.list .dynamicPseudoType) .unknown)
                  "ValidateValue: can not use a value of a mismatched type as a list element") := rfl
    rw [step1, hfound]
    show (match convertListElems t es with
      | .panicked m => .panicked m
      | .err _ m => GoResult.err (TfValue.mk (.list .dynamicPseudoType) .unknown) m
      | .ok vals2 =>
        if ValidateValue (.list .dynamicPseudoType) vals2
          then GoResult.ok (TfValue.mk (.list .dynamicPseudoType) (.seq vals2))
          else GoResult.err (TfValue.mk (.list .dynamicPseudoType) .unknown)
            "ValidateValue: can not use a value of a mismatched type as a list element")
      = GoResult.ok (TfValue.mk (.list .dynamicPseudoType) (.seq vals))
    rw [hc]
    show (if ValidateValue (.list .dynamicPseudoType) vals
        then GoResult.ok (TfValue.mk (.list .dynamicPseudoType) (.seq vals))
        else GoResult.err (TfValue.mk (.list .dynamicPseudoType) .unknown)
          "ValidateValue: can not use a value of a mismatched type as a list element")
      = GoResult.ok (TfValue.mk (.list .dynamicPseudoType) (.seq vals))
    rw [if_pos (show ValidateValue (.list .dynamicPseudoType) vals = true from
      TfValueList.allUsableAs_dpt vals)]
  · intro i v hv
    have hlt : i < TfValueList.length vals := TfValueList.lt_of_get?_some vals i v hv
    rw [hl] at hlt
    obtain ⟨e, he⟩ := AttrValueList.get?_some_of_lt es i hlt
    obtain ⟨v0, hv0, htyp⟩ := hconv i e he
    have hcorr := hp i e v0 he hv0
    rw [hv] at hcorr
    injection hcorr with hvv
    rw [hvv]
    by_cases hdpt : v0.typ.isDynamicPseudoType = true
    · rcases AttrValue.toTf_dpt_null_or_unknown e v0 hv0 hdpt with hnull | hunk
      · simp only [resolveDynElem]
        rw [if_pos hdpt, if_pos hnull]
        rfl
      · simp only [resolveDynElem]
        rw [if_pos hdpt]
        by_cases hnl : v0.IsNull = true
        · rw [if_pos hnl]
          rfl
        · rw [if_neg hnl, if_pos (fun hh => by rw [hunk] at hh; cases hh)]
          rfl
    · have hf : v0.typ.isDynamicPseudoType = false := Bool.eq_false_iff.mpr hdpt
      rw [show resolveDynElem t v0 = v0 from by
        simp only [resolveDynElem]
        rw [if_neg (fun hh => by rw [hf] at hh; cases hh)]]
      exact htyp hf

theorem claim_C4_witness :
    ∃ vals : TfValueList,
      ListValue.ToTerraformValue
          (.mk (.cons (.dyn ValueStateUnknown .none) (.cons (.str ValueStateKnown "x") .nil))
            .dynamic ValueStateKnown)
        = GoResult.ok (TfValue.mk (.list .dynamicPseudoType) (.seq vals))
      ∧ (∀ i v, TfValueList.get? vals i = Option.some v → v.typ = TfType.string) := by
  have h := claim_C4
    (.cons (.dyn ValueStateUnknown .none) (.cons (.str ValueStateKnown "x") .nil)) .string
    rfl ?hyp
  · obtain ⟨vals, h1, _, _, h4⟩ := h
    exact ⟨vals, h1, h4⟩
  case hyp =>
    intro i e h
    cases i with
    | zero =>
      injection h with h2
      rw [← h2]
      exact ⟨TfValue.mk .dynamicPseudoType .unknown, rfl, (fun hh => by cases hh)⟩
    | succ n =>
      cases n with
      | zero =>
        injection h with h2
        rw [← h2]
        exact ⟨TfValue.mk .string (.str "x"), rfl, (fun _ => rfl)⟩
      | succ m =>
        rw [AttrValueList.get?_cons_succ, AttrValueList.get?_cons_succ,
          attrValueList_get?_nil] at h
        cases h

/-- C2: two ListValues are equal iff the other value is the concrete
ListValue kind, the element Type Descriptors are equal, and the states are
equal, and — only when the state is known — the element collections have
equal length and pointwise equal elements in order; in particular two Null
(or two Unknown) ListValues with equal element types are equal regardless
of any stored elements, and a Known ListValue is never equal to a Null or
Unknown ListValue of the same element type. -/
theorem claim_C2 :
    (∀ (l : ListValue) (o : AttrValue),
      ListValue.Equal l o = true ↔
        ∃ other : ListValue, o = AttrValue.list other
          ∧ AttrType.equal l.elementType other.elementType = true
          ∧ l.state = other.state
          ∧ (l.state = ValueStateKnown →
              AttrValueList.length l.elements = AttrValueList.length other.elements
              ∧ ∀ i a b, AttrValueList.get? l.elements i = Option.some a →
                  AttrValueList.get? other.elements i = Option.some b →
                  AttrValue.Equal a b = true))
    ∧ (∀ (es es2 : AttrValueList) (t t2 : AttrType),
        AttrType.equal t t2 = true →
          ListValue.Equal (.mk es t ValueStateNull) (.list (.mk es2 t2 ValueStateNull)) = true
          ∧ ListValue.Equal (.mk es t ValueStateUnknown) (.list (.mk es2 t2 ValueStateUnknown)) = true)
    ∧ (∀ (es es2 : AttrValueList) (t : AttrType) (st : ValueState),
        st = ValueStateNull ∨ st = ValueStateUnknown →
          ListValue.Equal (.mk es t ValueStateKnown) (.list (.mk es2 t st)) = false) := by
  refine ⟨?_, ?_, ?_⟩
  · intro l o
    obtain ⟨es, t, s⟩ := l
    cases o with
    | str s2 v2 =>
      constructor
      · intro h
        cases h
      · rintro ⟨other, ho, _⟩
        cases ho
    | num s2 v2 =>
      constructor
      · intro h
        cases h
      · rintro ⟨other, ho, _⟩
        cases ho
    | dyn s2 u2 =>
      constructor
      · intro h
        cases h
      · rintro ⟨other, ho, _⟩
        cases ho
    | list other =>
      obtain ⟨es2, t2, s2⟩ := other
      show (if ¬ (AttrType.equal t t2) then false
          else if s ≠ s2 then false
          else if s ≠ ValueStateKnown then true
          else if AttrValueList.length es ≠ AttrValueList.length es2 then false
          else AttrValueList.Equal es es2) = true ↔ _
      by_cases h1 : AttrType.equal t t2 = true
      · rw [if_neg (fun hn => hn h1)]
        by_cases h2 : s = s2
        · subst h2
          rw [if_neg (fun hn => hn rfl)]
          by_cases h3 : s = ValueStateKnown
          · rw [if_neg (fun hn => hn h3)]
            by_cases h4 : AttrValueList.length es = AttrValueList.length es2
            · rw [if_neg (fun hn => hn h4), AttrValueList.Equal_iff es es2]
              constructor
              · intro hpt
                exact ⟨⟨es2, t2, s⟩, rfl, h1, rfl, fun _ => hpt⟩
              · rintro ⟨other2, ho, hty, hst, hk⟩
                injection ho with hinj
                rw [← hinj] at hk
                exact hk h3
            · rw [if_pos h4]
              constructor
              · intro h
                cases h
              · rintro ⟨other2, ho, hty, hst, hk⟩
                injection ho with hinj
                rw [← hinj] at hk
                exact absurd (hk h3).1 h4
          · rw [if_pos h3]
            constructor
            · intro _
              exact ⟨⟨es2, t2, s⟩, rfl, h1, rfl, fun hkk => absurd hkk h3⟩
            · intro _
              rfl
        · rw [if_pos h2]
          constructor
          · intro h
            cases h
          · rintro ⟨other2, ho, hty, hst, hk⟩
            injection ho with hinj
            rw [← hinj] at hst
            exact absurd hst h2
      · rw [if_pos h1]
        constructor
        · intro h
          cases h
        · rintro ⟨other2, ho, hty, hst, hk⟩
          injection ho with hinj
          rw [← hinj] at hty
          exact absurd hty h1
  · intro es es2 t t2 ht
    constructor
    · show (if ¬ (AttrType.equal t t2) then false
        else if (ValueStateNull : ValueState) ≠ ValueStateNull then false
        else if (ValueStateNull : ValueState) ≠ ValueStateKnown then true
        else if AttrValueList.length es ≠ AttrValueList.length es2 then false
        else AttrValueList.Equal es es2) = true
      rw [if_neg (fun hn => hn ht), if_neg (fun hn => hn rfl), if_pos (by decide)]
    · show (if ¬ (AttrType.equal t t2) then false
        else if (ValueStateUnknown : ValueState) ≠ ValueStateUnknown then false
        else if (ValueStateUnknown : ValueState) ≠ ValueStateKnown then true
        else if AttrValueList.length es ≠ AttrValueList.length es2 then false
        else AttrValueList.Equal es es2) = true
      rw [if_neg (fun hn => hn ht), if_neg (fun hn => hn rfl), if_pos (by decide)]
  · intro es es2 t st hst
    show (if ¬ (AttrType.equal t t) then false
        else if (ValueStateKnown : ValueState) ≠ st then false
        else if (ValueStateKnown : ValueState) ≠ ValueStateKnown then true
        else if AttrValueList.length es ≠ AttrValueList.length es2 then false
        else AttrValueList.Equal es es2) = false
    rw [if_neg (fun hn => hn (attrType_equal_refl t)), if_pos (by
      cases hst with
      | inl h => rw [h]; decide
      | inr h => rw [h]; decide)]

theorem claim_C2_witness :
    ListValue.Equal (.mk (.cons (.str ValueStateKnown "x") .nil) .string ValueStateKnown)
      (.list (.mk (.cons (.str ValueStateKnown "x") .nil) .string ValueStateKnown)) = true
    ∧ ListValue.Equal (.mk .nil .string ValueStateNull)
      (.list (.mk (.cons (.num ValueStateKnown 3) .nil) .string ValueStateNull)) = true
    ∧ ListValue.Equal (.mk .nil .string ValueStateKnown)
      (.list (.mk .nil .string ValueStateNull)) = false := by
  refine ⟨?_, ?_, ?_⟩
  · refine (claim_C2.1 _ _).mpr
      ⟨⟨.cons (.str ValueStateKnown "x") .nil, .string, ValueStateKnown⟩, rfl, rfl, rfl,
        fun _ => ⟨rfl, ?_⟩⟩
    intro i a b ha hb
    cases i with
    | zero =>
      injection ha with ha2
      injection hb with hb2
      rw [← ha2, ← hb2]
      rfl
    | succ n =>
      simp only [ListValue.elements] at ha
      rw [AttrValueList.get?_cons_succ, attrValueList_get?_nil] at ha
      cases ha
  · exact (claim_C2.2.1 .nil (.cons (.num ValueStateKnown 3) .nil) .string .string rfl).1
  · exact claim_C2.2.2 .nil .nil .string ValueStateNull (Or.inl rfl)
